import Mathlib

/-!
Formal model of the balijarbas Telegram-bot core: the LLM provider
abstraction (OpenAI and Gemini adapters), the tool-calling decision loop,
the tool dispatcher, and the in-memory task scheduler.

Modelling conventions, used throughout:
- JSON-serialized strings are modelled by their parse trees (the `Json`
  inductive).  `JSON.stringify` / `JSON.parse` form a lossless pair on
  JSON-safe values, so a string whose only uses are stringify/parse round
  trips is represented by the parsed value itself.  A string that is not
  valid JSON is kept as a plain `String` where the distinction matters.
- Nondeterministic identifier generation (`randomUUID`, `Date.now` based
  note ids, Gemini call ids) is modelled by injective counter-indexed
  generators; only freshness and distinctness of the generated ids are
  ever observable in the source.
- The system clock is an explicit `now : Int` parameter (epoch millis).
- External library functions (the JavaScript `Date` constructor and the
  node-schedule job factory) are explicit function parameters, so all
  theorems quantify over their behaviour.
-/

namespace Balijarbas

/-! ## JSON values -/

/-- Parse tree of a JSON document.  Models the dynamic values that flow
through tool arguments and serialized tool results. -/
inductive Json where
  | null
  | bool (b : Bool)
  | num (n : Int)
  | str (s : String)
  | arr (elems : List Json)
  | obj (fields : List (String × Json))
  deriving Repr, Inhabited

/-- Property lookup `v[k]` on a JSON value: `none` models JavaScript
`undefined` (absent field or non-object receiver). -/
def jget (v : Json) (k : String) : Option Json :=
  match v with
  | Json.obj fields => fields.lookup k
  | _ => none

/-- Property lookup with a default, modelling `v[k] ?? d` style access. -/
def jgetD (v : Json) (k : String) (d : Json) : Json :=
  (jget v k).getD d

/-- JavaScript truthiness of a JSON value. -/
def Json.truthy : Json → Bool
  | Json.null => false
  | Json.bool b => b
  | Json.num n => n != 0
  | Json.str s => !(s == "")
  | Json.arr _ => true
  | Json.obj _ => true

/-- JavaScript truthiness of a possibly-undefined value. -/
def jtruthy : Option Json → Bool
  | none => false
  | some v => v.truthy

/-- String body escaping for the JSON renderer. -/
def jsonEscape (s : String) : String :=
  String.mk (s.data.flatMap fun c =>
    if c = '"' then ['\\', '"'] else if c = '\\' then ['\\', '\\'] else [c])

/-- Rendering of a JSON string literal. -/
def Json.renderStr (s : String) : String :=
  "\"" ++ jsonEscape s ++ "\""

mutual

/-- Minimal `JSON.stringify` on parse trees (used only where a serialized
JSON value is re-embedded as message text). -/
def Json.render : Json → String
  | Json.null => "null"
  | Json.bool b => cond b "true" "false"
  | Json.num n => toString n
  | Json.str s => Json.renderStr s
  | Json.arr xs => "[" ++ Json.renderList xs ++ "]"
  | Json.obj fs => "\x7b" ++ Json.renderFields fs ++ "\x7d"

/-- Comma-joined rendering of JSON array elements. -/
def Json.renderList : List Json → String
  | [] => ""
  | [x] => Json.render x
  | x :: y :: xs => Json.render x ++ "," ++ Json.renderList (y :: xs)

/-- Comma-joined rendering of JSON object fields. -/
def Json.renderFields : List (String × Json) → String
  | [] => ""
  | [(k, v)] => Json.renderStr k ++ ":" ++ Json.render v
  | (k, v) :: f :: fs =>
      Json.renderStr k ++ ":" ++ Json.render v ++ "," ++ Json.renderFields (f :: fs)

end

/-! ## JavaScript string helpers

`String.toLower`/`String.trim` from the Lean library are implemented with
well-founded recursion and do not reduce in the kernel, so the JavaScript
`toLowerCase`/`trim` pair is modelled directly over character lists. -/

/-- ASCII lower-casing of one character, as performed by `toLowerCase` on
the key strings appearing in this code base. -/
def jsCharToLower (c : Char) : Char :=
  if 65 ≤ c.toNat ∧ c.toNat ≤ 90 then Char.ofNat (c.toNat + 32) else c

/-- Model of `String.prototype.toLowerCase`. -/
def jsToLowerCase (s : String) : String :=
  String.mk (s.data.map jsCharToLower)

/-- Model of `String.prototype.trim`: drop whitespace from both ends. -/
def jsTrim (s : String) : String :=
  String.mk (((s.data.dropWhile Char.isWhitespace).reverse.dropWhile
    Char.isWhitespace).reverse)

/-- Note-category key normalization: `key.toLowerCase().trim()`
(src tools.ts, note handlers). -/
def normalizeKey (s : String) : String :=
  jsTrim (jsToLowerCase s)

/-! ## Canonical LLM types (llm/types.ts) -/

/-- Discriminator of canonical tool calls. -/
inductive ToolCallType where
  | function_call
  | mcp_call
  deriving Repr, DecidableEq

/-- Canonical tool call emitted by a provider.  The `arguments` JSON
string is modelled by its parse tree (all producers in the source
serialize valid JSON into this field). -/
structure ToolCall where
  type : ToolCallType
  id : String
  name : String
  arguments : Json
  deriving Repr

/-- Canonical LLM response.  The provider-private `rawOutput` field is
omitted: it is only echoed back opaquely and never inspected by the code
under verification. -/
structure LLMResponse where
  toolCalls : List ToolCall
  textContent : Option String
  deriving Repr

/-- True on calls of function type (`tc.type === "function_call"`). -/
def isFunctionCallTC (tc : ToolCall) : Bool :=
  match tc.type with
  | ToolCallType.function_call => true
  | ToolCallType.mcp_call => false

/-! ## Decision loop (llm.ts, decideAndAct)

The loop control flow depends only on the sequence of provider responses
and the running call counter: tool results and the rebuilt input are
threaded through but never branch the loop.  The model therefore records,
for a stub provider that answers from a fixed script of responses, the
number of function calls dispatched, the number of provider invocations,
and the response the turn finalizes on.  `none` means the loop would
invoke the provider again but the script is exhausted. -/

/-- Fixed tool-call budget ceiling of a turn (llm.ts line 133). -/
def MAX_TOOL_CALLS : Nat := 8

/-- Outcome of one decision-loop turn against a response script. -/
structure TurnResult where
  numToolsCalled : Nat
  providerCalls : Nat
  finalResponse : LLMResponse
  deriving Repr

/-- One-turn decision loop over a script of stub model responses,
mirroring the `while (true)` loop of `decideAndAct`: dispatch every
function call of the current response, then re-invoke the provider only
while the counter stays within `MAX_TOOL_CALLS`. -/
def decideAndActLoop : List LLMResponse → Nat → Option TurnResult
  | [], _ => none
  | response :: rest, numToolsCalled =>
      let functionCalls := response.toolCalls.filter isFunctionCallTC
      if 0 < functionCalls.length then
        let n2 := numToolsCalled + functionCalls.length
        if n2 ≤ MAX_TOOL_CALLS then
          match decideAndActLoop rest n2 with
          | some tr => some { tr with providerCalls := tr.providerCalls + 1 }
          | none => none
        else
          some { numToolsCalled := n2, providerCalls := 1, finalResponse := response }
      else
        some { numToolsCalled := numToolsCalled, providerCalls := 1,
               finalResponse := response }

/-- Whole turn of `decideAndAct`: the counter starts at zero. -/
def decideAndAct (script : List LLMResponse) : Option TurnResult :=
  decideAndActLoop script 0

/-- Number of function-type tool calls in one response. -/
def fcCount (r : LLMResponse) : Nat :=
  (r.toolCalls.filter isFunctionCallTC).length

/-- Total number of function-type tool calls across a response script. -/
def fcTotal (script : List LLMResponse) : Nat :=
  (script.map fcCount).sum

/-! ## OpenAI provider response parsing (openai-provider.ts) -/

/-- Content part of an OpenAI `message` output item. -/
inductive ResponseContentPart where
  | output_text (text : String)
  | otherContent
  deriving Repr

/-- Output item of an OpenAI Responses API result.  `mcp_call` carries the
optional `name` and `arguments` exactly as the adapter reads them; items
the adapter ignores (reasoning, web search, ...) collapse to `otherItem`.
The default `"{}"` argument string parses to the empty object. -/
inductive ResponseOutputItem where
  | function_call (call_id : String) (name : String) (arguments : Json)
  | mcp_call (id : String) (name : Option String) (arguments : Option Json)
  | message (content : List ResponseContentPart)
  | otherItem
  deriving Repr

/-- Canonical form of one OpenAI output item, when it contributes a tool
call. -/
def openaiItemCall : ResponseOutputItem → Option ToolCall
  | ResponseOutputItem.function_call cid n a =>
      some { type := ToolCallType.function_call, id := cid, name := n, arguments := a }
  | ResponseOutputItem.mcp_call i n a =>
      some { type := ToolCallType.mcp_call, id := i, name := n.getD "",
             arguments := a.getD (Json.obj []) }
  | _ => none

/-- One step of the OpenAI response-parsing loop. -/
def openaiParseStep (acc : LLMResponse) (item : ResponseOutputItem) : LLMResponse :=
  match openaiItemCall item with
  | some tc => { acc with toolCalls := acc.toolCalls ++ [tc] }
  | none =>
      match item with
      | ResponseOutputItem.message contents =>
          { acc with textContent := contents.foldl (fun t c =>
              match c with
              | ResponseContentPart.output_text s => some (t.getD "" ++ s)
              | ResponseContentPart.otherContent => t) acc.textContent }
      | _ => acc

/-- `OpenAIProvider.parseResponse`: fold over `response.output`, pushing
every function/MCP call and concatenating `output_text` content. -/
def OpenAIParseResponse (output : List ResponseOutputItem) : LLMResponse :=
  output.foldl openaiParseStep { toolCalls := [], textContent := none }

/-- The `output_text` strings contained in one output item. -/
def openaiItemTexts : ResponseOutputItem → List String
  | ResponseOutputItem.message contents =>
      contents.filterMap fun c =>
        match c with
        | ResponseContentPart.output_text s => some s
        | ResponseContentPart.otherContent => none
  | _ => []

/-- Left-to-right concatenation of a list of strings. -/
def joinTexts : List String → String
  | [] => ""
  | s :: rest => s ++ joinTexts rest

/-! ## Gemini provider (gemini-provider.ts) -/

/-- One part of a Gemini-native `Content` value, covering the four part
shapes the adapter constructs or reads. -/
inductive GPart where
  | textPart (text : String)
  | functionCallPart (name : String) (args : Json)
  | functionResponsePart (name : String) (response : Json)
  | fileDataPart (mimeType : String) (fileUri : String)
  deriving Repr

/-- Gemini-native `Content`: a role tag plus parts. -/
structure GContent where
  role : String
  parts : List GPart
  deriving Repr

/-- One candidate of a `GenerateContentResponse` (only its content is
read by the adapter). -/
structure GCandidate where
  content : Option GContent
  deriving Repr

/-- Raw Gemini backend response as consumed by `parseResponse`. -/
structure GenerateContentResponse where
  candidates : List GCandidate
  deriving Repr

/-- Parts of the first candidate (`candidates[0].content?.parts ?? []`). -/
def candParts (r : GenerateContentResponse) : List GPart :=
  match r.candidates.head? with
  | some c => (c.content.map GContent.parts).getD []
  | none => []

/-- The text strings of a part list. -/
def partTexts (ps : List GPart) : List String :=
  ps.filterMap fun p =>
    match p with
    | GPart.textPart s => some s
    | _ => none

/-- The function calls of a part list, as name/argument pairs. -/
def partFunctionCalls (ps : List GPart) : List (String × Json) :=
  ps.filterMap fun p =>
    match p with
    | GPart.functionCallPart n a => some (n, a)
    | _ => none

/-- The `@google/genai` SDK accessor `response.text`: the concatenated
text parts of the first candidate, or `undefined` when there are none. -/
def GenerateContentResponse.text (r : GenerateContentResponse) : Option String :=
  let ts := partTexts (candParts r)
  if ts.isEmpty then none else some (joinTexts ts)

/-- The `@google/genai` SDK accessor `response.functionCalls`: every
function-call part of the first candidate, or `undefined` when there are
none. -/
def GenerateContentResponse.functionCalls (r : GenerateContentResponse) :
    Option (List (String × Json)) :=
  let fcs := partFunctionCalls (candParts r)
  if fcs.isEmpty then none else some fcs

/-- Counter-indexed model of the `gemini_${Date.now()}_${random}` call-id
generator. -/
def geminiFreshId (i : Nat) : String :=
  "gemini_" ++ toString i

/-- One step of the fallback scan of `GeminiProvider.parseResponse` over
the first candidate parts: capture a first text part if no text was
captured yet, and a function-call part only while no tool call was
captured yet. -/
def geminiScanStep (acc : List ToolCall × Option String) (p : GPart) :
    List ToolCall × Option String :=
  match p with
  | GPart.textPart s =>
      if !(s == "") && acc.2.isNone then (acc.1, some s) else acc
  | GPart.functionCallPart n a =>
      if acc.1.isEmpty then
        (acc.1 ++ [{ type := ToolCallType.function_call, id := geminiFreshId 0,
                     name := n, arguments := a }], acc.2)
      else acc
  | _ => acc

/-- `GeminiProvider.parseResponse`: use the SDK helper accessors first,
then scan the raw first-candidate parts for anything missed. -/
def GeminiParseResponse (r : GenerateContentResponse) : LLMResponse :=
  let textContent0 : Option String :=
    match r.text with
    | some s => if s == "" then none else some s
    | none => none
  let toolCalls0 : List ToolCall :=
    match r.functionCalls with
    | some fcs => fcs.enum.map fun p =>
        { type := ToolCallType.function_call, id := geminiFreshId p.1,
          name := p.2.1, arguments := p.2.2 }
    | none => []
  let res := (candParts r).foldl geminiScanStep (toolCalls0, textContent0)
  { toolCalls := res.1, textContent := res.2 }

/-! ## Canonical input items and the Gemini state smuggling -/

/-- Per-chat configuration.  The three fields are nullable strings in the
source type; at runtime they hold whatever JSON value `set_config` stored,
so they are modelled as JSON values with `Json.null` for the cleared
state. -/
structure ChatConfig where
  customPrompt : Json
  language : Json
  personality : Json
  deriving Repr

/-- One note item of a keyed note list.  `content` is stored exactly as
received; `createdAt` is the creation clock value. -/
structure NoteItem where
  id : String
  content : Json
  createdAt : Int
  createdBy : String
  deriving Repr

/-- Keyed note store: category key to ordered note list, in JavaScript
object insertion order. -/
def NotesStore := List (String × List NoteItem)

/-- Per-chat session data read and written by the tool handlers. -/
structure SessionData where
  config : ChatConfig
  notes : List (String × List NoteItem)
  deriving Repr

/-! ## Scheduler (scheduler.ts) -/

/-- A node-schedule job handle: cancellation flag plus the next planned
invocation time (`nextInvocation()`). -/
structure Job where
  canceled : Bool
  nextInvocation : Option Int
  deriving Repr

/-- In-memory scheduled task record. `schedule` and the duck-typed
`prompt`/`recurring` values are stored exactly as received from the tool
arguments. -/
structure ScheduledTask where
  id : String
  chatId : Int
  prompt : Json
  schedule : Json
  recurring : Json
  createdAt : Int
  createdBy : String
  job : Job
  deriving Repr

/-- The module-level `scheduledTasks` map (insertion ordered, unique
keys) together with the counter backing the injective `randomUUID`
model. -/
structure SchedulerState where
  tasks : List (String × ScheduledTask)
  nextUuid : Nat
  deriving Repr

/-- Injective model of `randomUUID()`: the n-th issued id.  Only
freshness of the generated ids is observable, so any injection into
strings is a faithful model. -/
def uuidStr (n : Nat) : String :=
  String.mk ('t' :: List.replicate n '*')

/-- Injective model of the `note_${Date.now()}_${random}` note-id
generator. -/
def noteIdStr (n : Nat) : String :=
  String.mk ('n' :: List.replicate n '*')

/-- Map lookup `scheduledTasks.get(taskId)` with a dynamically typed key:
a non-string key never matches a string-keyed entry. -/
def tasksGet (st : SchedulerState) (taskId : Json) : Option ScheduledTask :=
  match taskId with
  | Json.str s => st.tasks.lookup s
  | _ => none

/-- Result record of `createScheduledTask`. -/
structure CreateTaskResult where
  success : Bool
  taskId : Option String
  error : Option String
  deriving Repr, DecidableEq

section Scheduler

-- `jsDate` models the external JavaScript `new Date(x)` constructor: the
-- epoch timestamp of the parsed value, or `none` for an invalid date.
-- `cronJob` models the external `node-schedule` `scheduleJob` factory on a
-- recurrence specification: the created job, or `none` when the library
-- rejects the specification (the source observes `null`).
variable (jsDate : Json → Option Int)
variable (cronJob : Json → Option Job)

/-- `createScheduledTask`: validate the trigger, create the job, and
register the task.  Recurring triggers go straight to the job factory;
one-shot triggers must parse as a date (`"Invalid date format..."`
otherwise) strictly in the future (`"Scheduled time must be in the
future."` otherwise).  The uuid counter advances on every call because
the id is drawn before validation. -/
def createScheduledTask (now : Int) (chatId : Int) (prompt scheduleExpr recurring : Json)
    (createdBy : String) (st : SchedulerState) : CreateTaskResult × SchedulerState :=
  let taskId := uuidStr st.nextUuid
  let st1 : SchedulerState := { st with nextUuid := st.nextUuid + 1 }
  let register : Job → CreateTaskResult × SchedulerState := fun job =>
    let task : ScheduledTask :=
      { id := taskId, chatId := chatId, prompt := prompt, schedule := scheduleExpr,
        recurring := recurring, createdAt := now, createdBy := createdBy, job := job }
    ({ success := true, taskId := some taskId, error := none },
     { st1 with tasks := st1.tasks ++ [(taskId, task)] })
  if recurring.truthy then
    match cronJob scheduleExpr with
    | none =>
        ({ success := false, taskId := none,
           error := some "Failed to create schedule. Check the cron expression or date format." },
         st1)
    | some job => register job
  else
    match jsDate scheduleExpr with
    | none =>
        ({ success := false, taskId := none,
           error := some "Invalid date format for one-time task. Use ISO 8601 format." },
         st1)
    | some runDate =>
        if runDate ≤ now then
          ({ success := false, taskId := none,
             error := some "Scheduled time must be in the future." },
           st1)
        else
          register { canceled := false, nextInvocation := some runDate }

end Scheduler

/-- Listing entry produced by `listScheduledTasks`. -/
structure TaskInfo where
  id : String
  prompt : Json
  schedule : Json
  recurring : Json
  createdBy : String
  nextRun : Option Int
  deriving Repr

/-- `listScheduledTasks`: the tasks of one chat, in map order. -/
def listScheduledTasks (chatId : Int) (st : SchedulerState) : List TaskInfo :=
  st.tasks.filterMap fun p =>
    if p.2.chatId = chatId then
      some { id := p.2.id, prompt := p.2.prompt, schedule := p.2.schedule,
             recurring := p.2.recurring, createdBy := p.2.createdBy,
             nextRun := p.2.job.nextInvocation }
    else none

/-- Result record of `cancelScheduledTask`. -/
structure CancelResult where
  success : Bool
  error : Option String
  deriving Repr, DecidableEq

/-- `cancelScheduledTask`: reject unknown ids and tasks owned by another
chat; otherwise cancel the job and delete the task. -/
def cancelScheduledTask (taskId : Json) (chatId : Int) (st : SchedulerState) :
    CancelResult × SchedulerState :=
  match tasksGet st taskId with
  | none => ({ success := false, error := some "Task not found." }, st)
  | some task =>
      if task.chatId ≠ chatId then
        ({ success := false, error := some "Task does not belong to this chat." }, st)
      else
        ({ success := true, error := none },
         { st with tasks := st.tasks.filter fun p => p.1 != task.id })

/-- Entry filtering loop of `cancelAllTasksForChat`: walk the map entries
and drop (after canceling) every task of the given chat. -/
def cancelAllLoop (chatId : Int) : List (String × ScheduledTask) → List (String × ScheduledTask)
  | [] => []
  | p :: rest =>
      if p.2.chatId = chatId then cancelAllLoop chatId rest
      else p :: cancelAllLoop chatId rest

/-- `cancelAllTasksForChat`: cancel and remove every task of one chat. -/
def cancelAllTasksForChat (chatId : Int) (st : SchedulerState) : SchedulerState :=
  { st with tasks := cancelAllLoop chatId st.tasks }

/-- `executeScheduledPrompt`: run the provider (its success or failure is
swallowed by the try/catch and does not influence the state effect), then
remove the task when it is not recurring.  `providerFailed` records
whether the provider call threw. -/
def executeScheduledPrompt (task : ScheduledTask) (_providerFailed : Bool)
    (st : SchedulerState) : SchedulerState :=
  if task.recurring.truthy then st
  else { st with tasks := st.tasks.filter fun p => p.1 != task.id }

/-! ## Tool dispatcher (tools.ts) -/

/-- Dispatcher-facing state for one tool call: the chat, the caller name,
the per-chat session, the scheduler state and the id/clock generators. -/
structure Ctx where
  chatId : Int
  userName : String
  session : SessionData
  sched : SchedulerState
  noteGen : Nat
  now : Int
  deriving Repr

/-- JSON rendering of a chat configuration record. -/
def configJson (c : ChatConfig) : Json :=
  Json.obj [("customPrompt", c.customPrompt), ("language", c.language),
            ("personality", c.personality)]

/-- JSON rendering of one note item as emitted by the note handlers (the
ISO string rendering of `createdAt` is modelled by its numeric value). -/
def noteJson (n : NoteItem) : Json :=
  Json.obj [("id", Json.str n.id), ("content", n.content),
            ("createdAt", Json.num n.createdAt), ("createdBy", Json.str n.createdBy)]

/-- JSON rendering of one task listing entry (`nextRun` is the
`nextInvocation()?.toISOString() ?? null` value, modelled numerically). -/
def taskInfoJson (t : TaskInfo) : Json :=
  Json.obj [("id", Json.str t.id), ("prompt", t.prompt), ("schedule", t.schedule),
            ("recurring", t.recurring), ("createdBy", Json.str t.createdBy),
            ("nextRun", t.nextRun.elim Json.null Json.num)]

/-- Own-property note-store lookup by exact key: the entry stored on the
notes object itself, ignoring the prototype chain. -/
def notesGet (notes : List (String × List NoteItem)) (k : String) : Option (List NoteItem) :=
  notes.lookup k

/-- The all-lowercase keys at which the notes object (a plain JSON-parsed
JavaScript object, so it inherits from `Object.prototype`) yields a
truthy inherited value when the own property is absent: `constructor`
(the `Object` function) and `__proto__` (the prototype object).  Other
`Object.prototype` member names contain upper-case letters and are
unreachable after `toLowerCase` normalization. -/
def protoKey (k : String) : Bool :=
  k == "constructor" || k == "__proto__"

/-- Result of the JavaScript property read `notes[k]`: the own entry
when present, a truthy inherited non-array value when `k` collides with
`Object.prototype`, and `undefined` otherwise. -/
inductive NotesLookup where
  | own (items : List NoteItem)
  | inherited
  | absent
  deriving Repr

/-- The JavaScript property read `notes[k]` including the prototype
chain: an own property shadows the prototype; without one, a
prototype-colliding key reads the truthy inherited value. -/
def jsNotesIndex (notes : List (String × List NoteItem)) (k : String) : NotesLookup :=
  match notesGet notes k with
  | some items => NotesLookup.own items
  | none => if protoKey k then NotesLookup.inherited else NotesLookup.absent

/-- JavaScript object property write `notes[k] = items`: update in place
when the key exists, append otherwise. -/
def notesSet (notes : List (String × List NoteItem)) (k : String) (items : List NoteItem) :
    List (String × List NoteItem) :=
  match notes with
  | [] => [(k, items)]
  | (k0, v0) :: rest =>
      if k0 = k then (k, items) :: rest else (k0, v0) :: notesSet rest k items

/-- JavaScript `delete notes[k]`: drop the key, preserving order. -/
def notesDelete (notes : List (String × List NoteItem)) (k : String) :
    List (String × List NoteItem) :=
  notes.filter fun p => p.1 != k

/-- Strict-equality match of a dynamically typed note id against a stored
string id (`n.id === note_id`). -/
def noteIdMatches (noteId : Json) (n : NoteItem) : Bool :=
  match noteId with
  | Json.str s => n.id == s
  | _ => false

/-- Search loop of `remove_note`: find the first category containing the
id, splice the item out, and drop the category when it becomes empty.
Returns the matched category key and the updated store. -/
def removeNoteLoop (noteId : Json) :
    List (String × List NoteItem) → Option (String × List (String × List NoteItem))
  | [] => none
  | (k, items) :: rest =>
      if items.any (noteIdMatches noteId) then
        let items2 := items.eraseP (noteIdMatches noteId)
        some (k, if items2.isEmpty then rest else (k, items2) :: rest)
      else
        match removeNoteLoop noteId rest with
        | some (key, rest2) => some (key, (k, items) :: rest2)
        | none => none

section Dispatcher

variable (jsDate : Json → Option Int)
variable (cronJob : Json → Option Job)

/-- `handleToolCall`: route one named tool invocation with parsed JSON
arguments.  The result is `Except.ok` with the serialized outcome and the
updated state, or `Except.error` when the JavaScript code would throw a
`TypeError`: a string method invoked on a non-string argument field, or
an array method (`push`/`map`) invoked on the truthy value the notes
object inherits from `Object.prototype` when the normalized note key is
`constructor` or `__proto__`. -/
def handleToolCall (toolName : String) (args : Json) (ctx : Ctx) :
    Except String (Json × Ctx) :=
  match toolName with
  | "schedule_task" =>
      let prompt := jgetD args "prompt" Json.null
      let scheduleExpr := jgetD args "schedule" Json.null
      let recurring := jgetD args "recurring" Json.null
      let rs := createScheduledTask jsDate cronJob ctx.now ctx.chatId prompt scheduleExpr
        recurring ctx.userName ctx.sched
      let ctx2 := { ctx with sched := rs.2 }
      if rs.1.success then
        Except.ok (Json.obj [("success", Json.bool true),
          ("message", Json.str "Task scheduled successfully."),
          ("taskId", (rs.1.taskId.map Json.str).getD Json.null)], ctx2)
      else
        Except.ok (Json.obj [("success", Json.bool false),
          ("error", (rs.1.error.map Json.str).getD Json.null)], ctx2)
  | "list_tasks" =>
      let tasks := listScheduledTasks ctx.chatId ctx.sched
      Except.ok (Json.obj [("tasks", Json.arr (tasks.map taskInfoJson))], ctx)
  | "cancel_task" =>
      let taskId := jgetD args "task_id" Json.null
      let rs := cancelScheduledTask taskId ctx.chatId ctx.sched
      Except.ok (Json.obj ([("success", Json.bool rs.1.success)] ++
        (match rs.1.error with
         | some e => [("error", Json.str e)]
         | none => [])), { ctx with sched := rs.2 })
  | "cancel_all_tasks" =>
      Except.ok (Json.obj [("success", Json.bool true),
        ("message", Json.str "All tasks canceled.")],
        { ctx with sched := cancelAllTasksForChat ctx.chatId ctx.sched })
  | "get_config" =>
      Except.ok (Json.obj [("config", configJson ctx.session.config)], ctx)
  | "set_config" =>
      let c := ctx.session.config
      let c2 : ChatConfig :=
        { customPrompt := (jget args "custom_prompt").getD c.customPrompt,
          language := (jget args "language").getD c.language,
          personality := (jget args "personality").getD c.personality }
      let ctx2 := { ctx with session := { ctx.session with config := c2 } }
      Except.ok (Json.obj [("success", Json.bool true),
        ("message", Json.str "Configuration updated."),
        ("config", configJson c2)], ctx2)
  | "reset_config" =>
      let c2 : ChatConfig :=
        { customPrompt := Json.null, language := Json.null, personality := Json.null }
      let ctx2 := { ctx with session := { ctx.session with config := c2 } }
      Except.ok (Json.obj [("success", Json.bool true),
        ("message", Json.str "Configuration reset to defaults."),
        ("config", configJson c2)], ctx2)
  | "add_note" =>
      match jget args "key" with
      | some (Json.str key) =>
          let normalizedKey := normalizeKey key
          let content := jgetD args "content" Json.null
          let note : NoteItem :=
            { id := noteIdStr ctx.noteGen, content := content,
              createdAt := ctx.now, createdBy := ctx.userName }
          let finish : List NoteItem → Except String (Json × Ctx) := fun prev =>
            let notes2 := notesSet ctx.session.notes normalizedKey (prev ++ [note])
            let ctx2 := { ctx with
              session := { ctx.session with notes := notes2 },
              noteGen := ctx.noteGen + 1 }
            Except.ok (Json.obj [("success", Json.bool true),
              ("message", Json.str ("Note added to \"" ++ normalizedKey ++ "\".")),
              ("key", Json.str normalizedKey),
              ("note", noteJson note)], ctx2)
          match jsNotesIndex ctx.session.notes normalizedKey with
          | NotesLookup.own prev => finish prev
          | NotesLookup.absent => finish []
          | NotesLookup.inherited => Except.error "TypeError"
      | _ => Except.error "TypeError"
  | "list_notes" =>
      let keyArg := jget args "key"
      if jtruthy keyArg then
        match keyArg with
        | some (Json.str key) =>
            let normalizedKey := normalizeKey key
            let finish : List NoteItem → Except String (Json × Ctx) := fun keyNotes =>
              Except.ok (Json.obj [("key", Json.str normalizedKey),
                ("notes", Json.arr (keyNotes.map noteJson)),
                ("count", Json.num keyNotes.length)], ctx)
            match jsNotesIndex ctx.session.notes normalizedKey with
            | NotesLookup.own keyNotes => finish keyNotes
            | NotesLookup.absent => finish []
            | NotesLookup.inherited => Except.error "TypeError"
        | _ => Except.error "TypeError"
      else
        Except.ok (Json.obj [
          ("notes", Json.obj (ctx.session.notes.map fun p =>
            (p.1, Json.arr (p.2.map noteJson)))),
          ("keys", Json.arr (ctx.session.notes.map fun p => Json.str p.1)),
          ("totalCount", Json.num ((ctx.session.notes.map fun p => p.2.length).sum))], ctx)
  | "remove_note" =>
      let noteId := jgetD args "note_id" Json.null
      match removeNoteLoop noteId ctx.session.notes with
      | some (key, notes2) =>
          Except.ok (Json.obj [("success", Json.bool true),
            ("message", Json.str ("Note removed from \"" ++ key ++ "\".")),
            ("key", Json.str key)],
            { ctx with session := { ctx.session with notes := notes2 } })
      | none =>
          Except.ok (Json.obj [("success", Json.bool false),
            ("error", Json.str "Note not found.")], ctx)
  | "clear_notes" =>
      let keyArg := jget args "key"
      if jtruthy keyArg then
        match keyArg with
        | some (Json.str key) =>
            let normalizedKey := normalizeKey key
            match jsNotesIndex ctx.session.notes normalizedKey with
            | NotesLookup.absent =>
                Except.ok (Json.obj [("success", Json.bool false),
                  ("error", Json.str ("No notes found under \"" ++ normalizedKey ++ "\"."))], ctx)
            | _ =>
                Except.ok (Json.obj [("success", Json.bool true),
                  ("message", Json.str ("All notes under \"" ++ normalizedKey ++ "\" cleared.")),
                  ("key", Json.str normalizedKey)],
                  { ctx with session := { ctx.session with
                      notes := notesDelete ctx.session.notes normalizedKey } })
        | _ => Except.error "TypeError"
      else
        Except.ok (Json.obj [("success", Json.bool true),
          ("message", Json.str "All notes cleared.")],
          { ctx with session := { ctx.session with notes := [] } })
  | _ =>
      Except.ok (Json.obj [("error", Json.str ("Unknown tool: " ++ toolName))], ctx)

end Dispatcher

/-- Accumulated text-content combination: appending a batch of text parts
to an optional running text, as the parsing loops do. -/
def appendTexts (t : Option String) (ts : List String) : Option String :=
  if ts.isEmpty then t else some (t.getD "" ++ joinTexts ts)

/-- The first nonempty text part of a Gemini part list. -/
def firstNonemptyText : List GPart → Option String
  | [] => none
  | GPart.textPart s :: rest => if s == "" then firstNonemptyText rest else some s
  | _ :: rest => firstNonemptyText rest

/-- Fixture: a date parser that rejects every value. -/
def jsDateNone : Json → Option Int := fun _ => none

/-- Fixture: a date parser that parses every value to time 5. -/
def jsDateFive : Json → Option Int := fun _ => some 5

/-- Fixture: a recurrence job factory that rejects every specification. -/
def cronJobNone : Json → Option Job := fun _ => none

/-- Fixture: the default (all-null) chat configuration. -/
def emptyConfig : ChatConfig :=
  { customPrompt := Json.null, language := Json.null, personality := Json.null }

/-- Fixture: an empty session. -/
def emptySession : SessionData := { config := emptyConfig, notes := [] }

/-- Fixture: a fresh dispatcher context for chat 1. -/
def ctxInit : Ctx :=
  { chatId := 1, userName := "alice", session := emptySession,
    sched := { tasks := [], nextUuid := 0 }, noteGen := 0, now := 0 }

/-- Fixture: a one-shot task owned by chat 1. -/
def taskW : ScheduledTask :=
  { id := uuidStr 0, chatId := 1, prompt := Json.str "p", schedule := Json.str "s",
    recurring := Json.bool false, createdAt := 0, createdBy := "alice",
    job := { canceled := false, nextInvocation := some 99 } }

/-- Fixture: a recurring task owned by chat 2. -/
def taskRecW : ScheduledTask :=
  { id := uuidStr 1, chatId := 2, prompt := Json.str "q", schedule := Json.str "c",
    recurring := Json.bool true, createdAt := 0, createdBy := "bob",
    job := { canceled := false, nextInvocation := some 77 } }

/-- Fixture: a scheduler holding `taskW` and `taskRecW`. -/
def stW : SchedulerState :=
  { tasks := [(uuidStr 0, taskW), (uuidStr 1, taskRecW)], nextUuid := 2 }

/-- Fixture: a stub response carrying exactly one function call. -/
def oneCallResp : LLMResponse :=
  { toolCalls := [{ type := ToolCallType.function_call, id := "c1", name := "t",
                    arguments := Json.null }],
    textContent := none }

/-- Fixture: a terminal stub response with text only. -/
def textResp : LLMResponse := { toolCalls := [], textContent := some "done" }

/-- Fixture: the turn result of running the loop on `[textResp]`. -/
def trW : TurnResult :=
  { numToolsCalled := 0, providerCalls := 1, finalResponse := textResp }

/-- Fixture: the context reached from `ctxInit` after adding the note
"eggs" under "shopping". -/
def ctxScenario1 : Ctx :=
  { ctxInit with
    session := { config := emptyConfig,
                 notes := [("shopping",
                   [{ id := noteIdStr 0, content := Json.str "eggs",
                      createdAt := 0, createdBy := "alice" }])] },
    noteGen := 1 }

/-- Fixture: the context reached from `ctxScenario1` after removing that
note again. -/
def ctxScenario2 : Ctx :=
  { ctxInit with session := { config := emptyConfig, notes := [] }, noteGen := 1 }

/-! ## General helper lemmas -/

theorem empty_append_str (s : String) : "" ++ s = s := by
  cases s
  rfl

theorem append_empty_str (s : String) : s ++ "" = s := by
  cases s with
  | mk d => show String.mk (d ++ []) = String.mk d; rw [List.append_nil]

theorem joinTexts_append (a b : List String) :
    joinTexts (a ++ b) = joinTexts a ++ joinTexts b := by
  induction a with
  | nil => simp [joinTexts, empty_append_str]
  | cons s rest ih => simp [joinTexts, ih, String.append_assoc]

theorem str_eq_empty_of_length (s : String) (h : s.length = 0) : s = "" := by
  cases s with
  | mk d =>
    cases d with
    | nil => rfl
    | cons c cs => simp [String.length] at h

theorem joinTexts_eq_empty :
    ∀ ts : List String, joinTexts ts = "" → ∀ s ∈ ts, s = "" := by
  intro ts
  induction ts with
  | nil => intro _ s hs; cases hs
  | cons a rest ih =>
    intro h s hs
    have hlen : (a ++ joinTexts rest).length = 0 := by
      rw [show a ++ joinTexts rest = joinTexts (a :: rest) from rfl, h]
      rfl
    rw [String.length_append] at hlen
    rcases List.mem_cons.mp hs with heq | hmem
    · subst heq; exact str_eq_empty_of_length s (by omega)
    · exact ih (str_eq_empty_of_length _ (by omega)) s hmem

theorem uuidStr_injective (a b : Nat) (h : uuidStr a = uuidStr b) : a = b := by
  have hdata : ('t' :: List.replicate a '*') = ('t' :: List.replicate b '*') := by
    injection h
  have : (List.replicate a '*').length = (List.replicate b '*').length := by
    injection hdata with _ h2
    rw [h2]
  simpa using this

/-! ## C1: decision-loop budget -/

theorem fcTotal_nil : fcTotal [] = 0 := rfl

theorem fcTotal_cons (r : LLMResponse) (l : List LLMResponse) :
    fcTotal (r :: l) = fcCount r + fcTotal l := by
  simp [fcTotal, fcCount]

theorem fcTotal_take_le (k : Nat) (script : List LLMResponse) :
    fcTotal (script.take k) ≤ fcTotal script := by
  induction script generalizing k with
  | nil => simp
  | cons r rest ih =>
    cases k with
    | zero => simp [fcTotal_nil, fcTotal]
    | succ m =>
      rw [List.take_succ_cons, fcTotal_cons, fcTotal_cons]
      have := ih m
      omega

theorem decideAndActLoop_spec (script : List LLMResponse) :
    ∀ n tr, n ≤ MAX_TOOL_CALLS → decideAndActLoop script n = some tr →
      tr.numToolsCalled = n + fcTotal (script.take tr.providerCalls) ∧
      n + fcTotal (script.take (tr.providerCalls - 1)) ≤ MAX_TOOL_CALLS ∧
      tr.numToolsCalled ≤ MAX_TOOL_CALLS + fcCount tr.finalResponse ∧
      1 ≤ tr.providerCalls ∧ tr.providerCalls ≤ script.length := by
  induction script with
  | nil =>
    intro n tr _ h
    simp [decideAndActLoop] at h
  | cons r rest ih =>
    intro n tr hn h
    simp only [decideAndActLoop] at h
    by_cases h1 : 0 < (r.toolCalls.filter isFunctionCallTC).length
    · rw [if_pos h1] at h
      by_cases h2 : n + (r.toolCalls.filter isFunctionCallTC).length ≤ MAX_TOOL_CALLS
      · rw [if_pos h2] at h
        cases hrec : decideAndActLoop rest (n + (r.toolCalls.filter isFunctionCallTC).length) with
        | none => rw [hrec] at h; cases h
        | some tr2 =>
          rw [hrec] at h
          obtain ⟨ha, hb, hc, hd, he⟩ := ih _ _ h2 hrec
          have hna : tr.numToolsCalled = tr2.numToolsCalled := by cases h; rfl
          have hpc : tr.providerCalls = tr2.providerCalls + 1 := by cases h; rfl
          have hfr : tr.finalResponse = tr2.finalResponse := by cases h; rfl
          obtain ⟨m, hm⟩ : ∃ m, tr2.providerCalls = m + 1 := ⟨tr2.providerCalls - 1, by omega⟩
          refine ⟨?_, ?_, ?_, ?_, ?_⟩
          · rw [hna, hpc, List.take_succ_cons, fcTotal_cons]
            simp only [fcCount]
            omega
          · rw [hpc]
            simp only [Nat.add_sub_cancel]
            rw [hm, List.take_succ_cons, fcTotal_cons]
            rw [hm, Nat.add_sub_cancel] at hb
            simp only [fcCount]
            omega
          · rw [hna, hfr]; exact hc
          · omega
          · rw [hpc]; simp only [List.length_cons]; omega
      · rw [if_neg h2] at h
        have htr : tr = { numToolsCalled := n + (r.toolCalls.filter isFunctionCallTC).length,
                          providerCalls := 1, finalResponse := r } := by
          cases h; rfl
        subst htr
        refine ⟨?_, ?_, ?_, ?_, ?_⟩
        · simp [List.take_succ_cons, fcTotal_cons, fcTotal_nil, fcCount]
        · simpa [fcTotal_nil] using hn
        · simp only [fcCount]; omega
        · simp
        · simp
    · rw [if_neg h1] at h
      have hzero : (r.toolCalls.filter isFunctionCallTC).length = 0 := by omega
      have htr : tr = { numToolsCalled := n, providerCalls := 1, finalResponse := r } := by
        cases h; rfl
      subst htr
      refine ⟨?_, ?_, ?_, ?_, ?_⟩
      · simp [List.take_succ_cons, fcTotal_cons, fcTotal_nil, fcCount, hzero]
      · simpa [fcTotal_nil] using hn
      · simp only [fcCount]; omega
      · simp
      · simp

/-- C1 (amended): in `decideAndAct`, every function call of each processed
response is dispatched, and the budget check happens only after a whole
response batch, so the dispatched total equals the function-call count of
the consumed script prefix, the total before the final batch never
exceeds `MAX_TOOL_CALLS` (hence the total exceeds the ceiling by at most
the size of the final batch, and a script within budget never exceeds
it), and once the counter exceeds the budget the turn finalizes without a
further provider invocation (the provider is invoked exactly
`providerCalls` times). -/
theorem decideAndAct_budget (script : List LLMResponse) (tr : TurnResult)
    (h : decideAndAct script = some tr) :
    tr.numToolsCalled = fcTotal (script.take tr.providerCalls) ∧
    fcTotal (script.take (tr.providerCalls - 1)) ≤ MAX_TOOL_CALLS ∧
    tr.numToolsCalled ≤ MAX_TOOL_CALLS + fcCount tr.finalResponse ∧
    (fcTotal script ≤ MAX_TOOL_CALLS → tr.numToolsCalled ≤ MAX_TOOL_CALLS) ∧
    1 ≤ tr.providerCalls ∧ tr.providerCalls ≤ script.length := by
  obtain ⟨ha, hb, hc, hd, he⟩ :=
    decideAndActLoop_spec script 0 tr (by simp [MAX_TOOL_CALLS]) h
  refine ⟨by simpa using ha, by simpa using hb, hc, ?_, hd, he⟩
  intro hbudget
  have := fcTotal_take_le tr.providerCalls script
  omega

/-- Witness for C1: a script with a single terminal text response
finalizes after one provider call with zero dispatched tool calls. -/
theorem decideAndAct_budget_witness :
    decideAndAct [textResp] = some trW ∧
    (trW.numToolsCalled = fcTotal ([textResp].take trW.providerCalls) ∧
     fcTotal ([textResp].take (trW.providerCalls - 1)) ≤ MAX_TOOL_CALLS ∧
     trW.numToolsCalled ≤ MAX_TOOL_CALLS + fcCount trW.finalResponse ∧
     (fcTotal [textResp] ≤ MAX_TOOL_CALLS → trW.numToolsCalled ≤ MAX_TOOL_CALLS) ∧
     1 ≤ trW.providerCalls ∧ trW.providerCalls ≤ [textResp].length) :=
  ⟨rfl, decideAndAct_budget [textResp] trW rfl⟩

/-- Counterexample for C1 as stated: against a stub model that answers
nine times with one function call each, the loop dispatches nine function
calls in the turn, strictly more than `MAX_TOOL_CALLS = 8`. -/
theorem decideAndAct_budget_counterexample :
    (decideAndAct (List.replicate 9 oneCallResp)).map (fun tr => tr.numToolsCalled) =
      some 9 ∧
    MAX_TOOL_CALLS < 9 := by
  constructor
  · rfl
  · decide

/-! ## C2: provider response parsing surfaces every tool call -/

theorem appendTexts_nil (t : Option String) : appendTexts t [] = t := by
  simp [appendTexts]

theorem appendTexts_append (t : Option String) (a b : List String) :
    appendTexts t (a ++ b) = appendTexts (appendTexts t a) b := by
  cases a with
  | nil => simp [appendTexts_nil]
  | cons x xs =>
    cases b with
    | nil => simp [appendTexts]
    | cons y ys =>
      simp only [appendTexts, List.cons_append, List.isEmpty_cons, Bool.false_eq_true,
        if_false, Option.getD_some]
      rw [show (x :: (xs ++ y :: ys)) = (x :: xs) ++ (y :: ys) from rfl,
        joinTexts_append, String.append_assoc]

theorem msgFold (cs : List ResponseContentPart) : ∀ t : Option String,
    cs.foldl (fun t c =>
      match c with
      | ResponseContentPart.output_text s => some (t.getD "" ++ s)
      | ResponseContentPart.otherContent => t) t =
    appendTexts t (cs.filterMap fun c =>
      match c with
      | ResponseContentPart.output_text s => some s
      | ResponseContentPart.otherContent => none) := by
  induction cs with
  | nil => intro t; simp [appendTexts_nil]
  | cons c rest ih =>
    intro t
    cases c with
    | output_text s =>
      rw [List.foldl_cons, ih]
      have : s :: (rest.filterMap fun c =>
          match c with
          | ResponseContentPart.output_text s => some s
          | ResponseContentPart.otherContent => none) =
          [s] ++ (rest.filterMap fun c =>
          match c with
          | ResponseContentPart.output_text s => some s
          | ResponseContentPart.otherContent => none) := rfl
      simp only [List.filterMap_cons]
      rw [this, appendTexts_append]
      simp [appendTexts, joinTexts, append_empty_str]
    | otherContent =>
      rw [List.foldl_cons, ih]
      simp [List.filterMap_cons]

theorem openaiFold_calls (output : List ResponseOutputItem) : ∀ acc : LLMResponse,
    (output.foldl openaiParseStep acc).toolCalls =
      acc.toolCalls ++ output.filterMap openaiItemCall := by
  induction output with
  | nil => intro acc; simp
  | cons item rest ih =>
    intro acc
    cases item <;> simp [openaiParseStep, openaiItemCall, ih, List.append_assoc]

theorem openaiFold_text (output : List ResponseOutputItem) : ∀ acc : LLMResponse,
    (output.foldl openaiParseStep acc).textContent =
      appendTexts acc.textContent (output.flatMap openaiItemTexts) := by
  induction output with
  | nil => intro acc; simp [appendTexts_nil]
  | cons item rest ih =>
    intro acc
    cases item with
    | function_call cid n a => simp [openaiParseStep, openaiItemCall, ih, openaiItemTexts]
    | mcp_call i n a => simp [openaiParseStep, openaiItemCall, ih, openaiItemTexts]
    | otherItem => simp [openaiParseStep, openaiItemCall, ih, openaiItemTexts]
    | message cs =>
      rw [List.foldl_cons]
      show (rest.foldl openaiParseStep _).textContent = _
      rw [ih]
      simp only [openaiParseStep, openaiItemCall]
      rw [msgFold]
      show appendTexts (appendTexts acc.textContent _) _ = _
      rw [← appendTexts_append]
      simp [openaiItemTexts]

theorem geminiScan_keeps (ps : List GPart) : ∀ acc : List ToolCall × Option String,
    acc.1 ≠ [] → (ps.foldl geminiScanStep acc).1 = acc.1 := by
  induction ps with
  | nil => intro acc _; rfl
  | cons p rest ih =>
    intro acc hacc
    cases p with
    | textPart s =>
      rw [List.foldl_cons]
      show (rest.foldl geminiScanStep (geminiScanStep acc (GPart.textPart s))).1 = acc.1
      by_cases hc : (!(s == "") && acc.2.isNone) = true
      · rw [show geminiScanStep acc (GPart.textPart s) = (acc.1, some s) from by
          simp [geminiScanStep, hc]]
        exact ih (acc.1, some s) hacc
      · rw [show geminiScanStep acc (GPart.textPart s) = acc from by
          simp only [geminiScanStep]; rw [if_neg hc]]
        exact ih acc hacc
    | functionCallPart n a =>
      rw [List.foldl_cons]
      have hne : acc.1.isEmpty = false := by
        cases h1 : acc.1 with
        | nil => exact absurd h1 hacc
        | cons _ _ => rfl
      rw [show geminiScanStep acc (GPart.functionCallPart n a) = acc from by
        simp [geminiScanStep, hne]]
      exact ih acc hacc
    | functionResponsePart n r => exact ih acc hacc
    | fileDataPart m u => exact ih acc hacc

theorem geminiScan_noFc : ∀ ps : List GPart, partFunctionCalls ps = [] →
    ∀ acc : List ToolCall × Option String, (ps.foldl geminiScanStep acc).1 = acc.1 := by
  intro ps
  induction ps with
  | nil => intro _ acc; rfl
  | cons p rest ih =>
    intro hps acc
    cases p with
    | textPart s =>
      rw [List.foldl_cons]
      have hps2 : partFunctionCalls rest = [] := by simpa [partFunctionCalls] using hps
      by_cases hc : (!(s == "") && acc.2.isNone) = true
      · rw [show geminiScanStep acc (GPart.textPart s) = (acc.1, some s) from by
          simp [geminiScanStep, hc]]
        exact ih hps2 (acc.1, some s)
      · rw [show geminiScanStep acc (GPart.textPart s) = acc from by
          simp only [geminiScanStep]; rw [if_neg hc]]
        exact ih hps2 acc
    | functionCallPart n a => simp [partFunctionCalls] at hps
    | functionResponsePart n r =>
      have hps2 : partFunctionCalls rest = [] := by simpa [partFunctionCalls] using hps
      exact ih hps2 acc
    | fileDataPart m u =>
      have hps2 : partFunctionCalls rest = [] := by simpa [partFunctionCalls] using hps
      exact ih hps2 acc

theorem geminiScan_text (ps : List GPart) : ∀ acc : List ToolCall × Option String,
    (ps.foldl geminiScanStep acc).2 =
      (match acc.2 with
       | some t => some t
       | none => firstNonemptyText ps) := by
  induction ps with
  | nil =>
    intro acc
    cases h : acc.2 <;> simp [firstNonemptyText, h]
  | cons p rest ih =>
    intro acc
    cases p with
    | textPart s =>
      rw [List.foldl_cons]
      cases hacc : acc.2 with
      | some t =>
        rw [show geminiScanStep acc (GPart.textPart s) = acc from by
          simp [geminiScanStep, hacc]]
        rw [ih acc, hacc]
      | none =>
        by_cases hs : (s == "") = true
        · rw [show geminiScanStep acc (GPart.textPart s) = acc from by
            simp [geminiScanStep, hs]]
          rw [ih acc, hacc]
          simp [firstNonemptyText, hs]
        · rw [show geminiScanStep acc (GPart.textPart s) = (acc.1, some s) from by
            simp [geminiScanStep, hs, hacc]]
          rw [ih (acc.1, some s)]
          simp [firstNonemptyText, hs]
    | functionCallPart n a =>
      rw [List.foldl_cons]
      have h2 : (geminiScanStep acc (GPart.functionCallPart n a)).2 = acc.2 := by
        simp only [geminiScanStep]
        split <;> rfl
      have h1 := ih (geminiScanStep acc (GPart.functionCallPart n a))
      rw [h1, h2]
      rfl
    | functionResponsePart n r =>
      rw [List.foldl_cons,
        show geminiScanStep acc (GPart.functionResponsePart n r) = acc from rfl, ih acc]
      rfl
    | fileDataPart m u =>
      rw [List.foldl_cons,
        show geminiScanStep acc (GPart.fileDataPart m u) = acc from rfl, ih acc]
      rfl

theorem firstNonemptyText_none :
    ∀ ps : List GPart, (∀ s ∈ partTexts ps, s = "") → firstNonemptyText ps = none := by
  intro ps
  induction ps with
  | nil => intro _; rfl
  | cons p rest ih =>
    intro h
    cases p with
    | textPart s =>
      have hcons : partTexts (GPart.textPart s :: rest) = s :: partTexts rest := by
        simp [partTexts]
      rw [hcons] at h
      have hs : s = "" := h s (List.mem_cons_self _ _)
      have hrest : ∀ t ∈ partTexts rest, t = "" := fun t ht =>
        h t (List.mem_cons_of_mem _ ht)
      simp [firstNonemptyText, hs, ih hrest]
    | functionCallPart n a =>
      have hcons : partTexts (GPart.functionCallPart n a :: rest) = partTexts rest := by
        simp [partTexts]
      rw [hcons] at h
      exact ih h
    | functionResponsePart n r =>
      have hcons : partTexts (GPart.functionResponsePart n r :: rest) = partTexts rest := by
        simp [partTexts]
      rw [hcons] at h
      exact ih h
    | fileDataPart m u =>
      have hcons : partTexts (GPart.fileDataPart m u :: rest) = partTexts rest := by
        simp [partTexts]
      rw [hcons] at h
      exact ih h

theorem enumFrom_mk_proj (l : List (String × Json)) : ∀ n : Nat,
    ((List.enumFrom n l).map (fun p =>
      ({ type := ToolCallType.function_call, id := geminiFreshId p.1,
         name := p.2.1, arguments := p.2.2 } : ToolCall))).map
      (fun tc => (tc.name, tc.arguments)) = l := by
  induction l with
  | nil => intro n; rfl
  | cons x xs ih =>
    intro n
    simp only [List.enumFrom, List.map_cons, List.map_cons]
    rw [ih (n + 1)]

/-- C2: both provider adapters surface in the canonical response every
tool call the backend returned, in order (in particular all of several
function calls, not only the first), together with the returned text
content: the OpenAI parse result lists exactly the function/MCP call
items of `response.output`, and the Gemini parse result lists exactly the
function-call parts of the first candidate (nonempty concatenated text
surfacing as the text content in both cases). -/
theorem parseResponse_surfaces_all :
    (∀ output : List ResponseOutputItem,
      (OpenAIParseResponse output).toolCalls = output.filterMap openaiItemCall ∧
      (OpenAIParseResponse output).textContent =
        (if output.flatMap openaiItemTexts = [] then none
         else some (joinTexts (output.flatMap openaiItemTexts)))) ∧
    (∀ r : GenerateContentResponse,
      (GeminiParseResponse r).toolCalls.map (fun tc => (tc.name, tc.arguments)) =
        partFunctionCalls (candParts r) ∧
      (GeminiParseResponse r).textContent =
        (if joinTexts (partTexts (candParts r)) = "" then none
         else some (joinTexts (partTexts (candParts r))))) := by
  constructor
  · intro output
    constructor
    · have := openaiFold_calls output { toolCalls := [], textContent := none }
      simpa [OpenAIParseResponse] using this
    · have h := openaiFold_text output { toolCalls := [], textContent := none }
      rw [show OpenAIParseResponse output =
        output.foldl openaiParseStep { toolCalls := [], textContent := none } from rfl, h]
      cases hts : output.flatMap openaiItemTexts with
      | nil => simp [appendTexts_nil]
      | cons x xs => simp [appendTexts, empty_append_str]
  · intro r
    constructor
    · cases hfc : partFunctionCalls (candParts r) with
      | nil =>
        have hget : r.functionCalls = none := by
          simp [GenerateContentResponse.functionCalls, hfc]
        simp only [GeminiParseResponse, hget]
        rw [geminiScan_noFc _ hfc]
        simp [hfc]
      | cons x xs =>
        have hget : r.functionCalls = some (x :: xs) := by
          simp [GenerateContentResponse.functionCalls, hfc]
        simp only [GeminiParseResponse, hget]
        rw [geminiScan_keeps]
        · show ((x :: xs).enum.map (fun p =>
            ({ type := ToolCallType.function_call, id := geminiFreshId p.1,
               name := p.2.1, arguments := p.2.2 } : ToolCall))).map
              (fun tc => (tc.name, tc.arguments)) = x :: xs
          exact enumFrom_mk_proj (x :: xs) 0
        · simp [List.enum, List.enumFrom]
    · cases hts0 : partTexts (candParts r) with
      | nil =>
        have hget : r.text = none := by
          simp [GenerateContentResponse.text, hts0]
        simp only [GeminiParseResponse, hget]
        rw [geminiScan_text]
        have hfn : firstNonemptyText (candParts r) =
            none := firstNonemptyText_none _ (by simp [hts0])
        simp [hfn, hts0, joinTexts]
      | cons x xs =>
        have hget : r.text = some (joinTexts (partTexts (candParts r))) := by
          simp [GenerateContentResponse.text, hts0]
        by_cases hj : joinTexts (partTexts (candParts r)) = ""
        · have hall : ∀ s ∈ partTexts (candParts r), s = "" :=
            joinTexts_eq_empty _ hj
          have hfn : firstNonemptyText (candParts r) = none :=
            firstNonemptyText_none _ hall
          simp only [GeminiParseResponse, hget]
          rw [geminiScan_text]
          have hj2 : joinTexts (x :: xs) = "" := by rw [← hts0]; exact hj
          simp [hj, hj2, hfn]
        · simp only [GeminiParseResponse, hget]
          rw [geminiScan_text]
          have hj2 : ¬ joinTexts (x :: xs) = "" := by rw [← hts0]; exact hj
          simp [hj, hj2, hts0]

/-! ## C4: Gemini smuggled-state round trip -/

/-- C5 (amended): `createScheduledTask` validates triggers and is atomic
on rejection.  A one-shot trigger that does not parse as a date is
rejected with the invalid-date-format error (not the future-tense one);
one that parses to a timestamp not strictly later than now is rejected
with the future-tense error; a recurring trigger the job factory rejects
fails with the schedule-creation error; in each rejection the live task
set is unchanged.  A valid strictly-future one-shot trigger succeeds with
the freshly issued id, which differs from every previously issued id. -/
theorem createScheduledTask_validation (jsDate : Json → Option Int)
    (cronJob : Json → Option Job) (now chatId : Int) (prompt sched rec : Json)
    (createdBy : String) (st : SchedulerState) :
    (rec.truthy = false → jsDate sched = none →
      (createScheduledTask jsDate cronJob now chatId prompt sched rec createdBy st).1 =
        { success := false, taskId := none,
          error := some "Invalid date format for one-time task. Use ISO 8601 format." } ∧
      (createScheduledTask jsDate cronJob now chatId prompt sched rec createdBy st).2.tasks =
        st.tasks) ∧
    (∀ t : Int, rec.truthy = false → jsDate sched = some t → t ≤ now →
      (createScheduledTask jsDate cronJob now chatId prompt sched rec createdBy st).1 =
        { success := false, taskId := none,
          error := some "Scheduled time must be in the future." } ∧
      (createScheduledTask jsDate cronJob now chatId prompt sched rec createdBy st).2.tasks =
        st.tasks) ∧
    (rec.truthy = true → cronJob sched = none →
      (createScheduledTask jsDate cronJob now chatId prompt sched rec createdBy st).1 =
        { success := false, taskId := none,
          error := some "Failed to create schedule. Check the cron expression or date format." } ∧
      (createScheduledTask jsDate cronJob now chatId prompt sched rec createdBy st).2.tasks =
        st.tasks) ∧
    (∀ t : Int, rec.truthy = false → jsDate sched = some t → now < t →
      (createScheduledTask jsDate cronJob now chatId prompt sched rec createdBy st).1 =
        { success := true, taskId := some (uuidStr st.nextUuid), error := none } ∧
      ((∀ p ∈ st.tasks, ∃ k, k < st.nextUuid ∧ p.1 = uuidStr k) →
        ∀ p ∈ st.tasks, p.1 ≠ uuidStr st.nextUuid)) := by
  refine ⟨?_, ?_, ?_, ?_⟩
  · intro hrec hdate
    constructor <;> simp [createScheduledTask, hrec, hdate]
  · intro t hrec hdate ht
    constructor <;> simp [createScheduledTask, hrec, hdate, ht]
  · intro hrec hcron
    constructor <;> simp [createScheduledTask, hrec, hcron]
  · intro t hrec hdate ht
    constructor
    · simp [createScheduledTask, hrec, hdate, show ¬ t ≤ now from by omega]
    · intro hwf p hp heq
      obtain ⟨k, hk, hpk⟩ := hwf p hp
      rw [hpk] at heq
      have := uuidStr_injective k st.nextUuid heq
      omega

/-- Witness for C5: the amended validation clauses evaluated at concrete
triggers: a past one-shot timestamp is rejected, an invalid recurrence is
rejected, and a future one-shot timestamp succeeds with a fresh id. -/
theorem createScheduledTask_validation_witness :
    ((createScheduledTask jsDateFive cronJobNone 10 1 Json.null (Json.str "x")
        (Json.bool false) "alice" { tasks := [], nextUuid := 0 }).1 =
      { success := false, taskId := none,
        error := some "Scheduled time must be in the future." } ∧
     (createScheduledTask jsDateFive cronJobNone 10 1 Json.null (Json.str "x")
        (Json.bool false) "alice" { tasks := [], nextUuid := 0 }).2.tasks = []) ∧
    ((createScheduledTask jsDateFive cronJobNone 0 1 Json.null (Json.str "c")
        (Json.bool true) "alice" { tasks := [], nextUuid := 0 }).1 =
      { success := false, taskId := none,
        error := some "Failed to create schedule. Check the cron expression or date format." } ∧
     (createScheduledTask jsDateFive cronJobNone 0 1 Json.null (Json.str "c")
        (Json.bool true) "alice" { tasks := [], nextUuid := 0 }).2.tasks = []) ∧
    ((createScheduledTask jsDateFive cronJobNone 0 1 Json.null (Json.str "x")
        (Json.bool false) "alice" stW).1 =
      { success := true, taskId := some (uuidStr 2), error := none } ∧
     ∀ p ∈ stW.tasks, p.1 ≠ uuidStr 2) := by
  refine ⟨⟨?_, ?_⟩, ?_, ?_⟩
  · exact ((createScheduledTask_validation jsDateFive cronJobNone 10 1 Json.null
      (Json.str "x") (Json.bool false) "alice" { tasks := [], nextUuid := 0 }).2.1
        5 rfl rfl (by omega)).1
  · exact ((createScheduledTask_validation jsDateFive cronJobNone 10 1 Json.null
      (Json.str "x") (Json.bool false) "alice" { tasks := [], nextUuid := 0 }).2.1
        5 rfl rfl (by omega)).2
  · exact (createScheduledTask_validation jsDateFive cronJobNone 0 1 Json.null
      (Json.str "c") (Json.bool true) "alice" { tasks := [], nextUuid := 0 }).2.2.1
        rfl rfl
  · constructor
    · exact ((createScheduledTask_validation jsDateFive cronJobNone 0 1 Json.null
        (Json.str "x") (Json.bool false) "alice" stW).2.2.2 5 rfl rfl (by omega)).1
    · refine ((createScheduledTask_validation jsDateFive cronJobNone 0 1 Json.null
        (Json.str "x") (Json.bool false) "alice" stW).2.2.2 5 rfl rfl (by omega)).2 ?_
      intro p hp
      have hp2 := hp
      simp only [stW] at hp2
      rcases List.mem_cons.mp hp2 with rfl | hp3
      · exact ⟨0, by decide, rfl⟩
      · rcases List.mem_cons.mp hp3 with rfl | hp4
        · exact ⟨1, by decide, rfl⟩
        · cases hp4

/-- Counterexample for C5 as stated: an unparseable one-shot trigger is
rejected with the invalid-date-format message, which is not the
future-tense rejection the claim promises for every non-future string. -/
theorem createScheduledTask_validation_counterexample :
    (createScheduledTask jsDateNone cronJobNone 0 1 Json.null (Json.str "not-a-date")
      (Json.bool false) "alice" { tasks := [], nextUuid := 0 }).1.success = false ∧
    (createScheduledTask jsDateNone cronJobNone 0 1 Json.null (Json.str "not-a-date")
      (Json.bool false) "alice" { tasks := [], nextUuid := 0 }).1.error =
      some "Invalid date format for one-time task. Use ISO 8601 format." ∧
    some "Invalid date format for one-time task. Use ISO 8601 format." ≠
      some "Scheduled time must be in the future." :=
  ⟨rfl, rfl, by decide⟩

/-! ## C6: cross-chat cancellation rejection -/

/-- C6: when the requesting chat does not own the task,
`cancelScheduledTask` rejects with the does-not-belong error and leaves
the whole scheduler state unchanged: the task stays in the live set with
its job uncanceled. -/
theorem cancelScheduledTask_ownership (st : SchedulerState) (taskId : Json)
    (chatId : Int) (task : ScheduledTask)
    (hfound : tasksGet st taskId = some task) (howner : task.chatId ≠ chatId) :
    cancelScheduledTask taskId chatId st =
      ({ success := false, error := some "Task does not belong to this chat." }, st) ∧
    tasksGet (cancelScheduledTask taskId chatId st).2 taskId = some task := by
  have h1 : cancelScheduledTask taskId chatId st =
      ({ success := false, error := some "Task does not belong to this chat." }, st) := by
    simp [cancelScheduledTask, hfound, howner]
  exact ⟨h1, by rw [h1]; exact hfound⟩

/-- Witness for C6: chat 2 cannot cancel the task owned by chat 1. -/
theorem cancelScheduledTask_ownership_witness :
    cancelScheduledTask (Json.str (uuidStr 0)) 2 stW =
      ({ success := false, error := some "Task does not belong to this chat." }, stW) ∧
    tasksGet (cancelScheduledTask (Json.str (uuidStr 0)) 2 stW).2 (Json.str (uuidStr 0)) =
      some taskW :=
  cancelScheduledTask_ownership stW (Json.str (uuidStr 0)) 2 taskW rfl (by decide)

/-! ## C7: one-shot self-deletion in executeScheduledPrompt -/

theorem lookup_filter_bne {β : Type} (l : List (String × β)) (id : String) :
    (l.filter fun p => p.1 != id).lookup id = none := by
  induction l with
  | nil => rfl
  | cons p rest ih =>
    by_cases hp : p.1 = id
    · simp [List.filter_cons, hp, ih]
    · have hb : (id == p.1) = false := beq_eq_false_iff_ne.mpr (Ne.symm hp)
      simp [List.filter_cons, List.lookup, hp, ih, hb]

/-- C7: after `executeScheduledPrompt` completes — whether or not the
provider call threw — a non-recurring task id is gone from the live task
set, and a recurring task leaves the scheduler state untouched. -/
theorem executeScheduledPrompt_lifecycle (task : ScheduledTask) (providerFailed : Bool)
    (st : SchedulerState) :
    (task.recurring = Json.bool false →
      (executeScheduledPrompt task providerFailed st).tasks.lookup task.id = none) ∧
    (task.recurring = Json.bool true →
      executeScheduledPrompt task providerFailed st = st) := by
  constructor
  · intro h
    simp [executeScheduledPrompt, h, Json.truthy, lookup_filter_bne]
  · intro h
    simp [executeScheduledPrompt, h, Json.truthy]

/-- Witness for C7: a fired one-shot task disappears from the fixture
scheduler regardless of the provider outcome; the recurring task leaves
the state unchanged. -/
theorem executeScheduledPrompt_lifecycle_witness :
    (executeScheduledPrompt taskW true stW).tasks.lookup taskW.id = none ∧
    executeScheduledPrompt taskRecW false stW = stW :=
  ⟨(executeScheduledPrompt_lifecycle taskW true stW).1 rfl,
   (executeScheduledPrompt_lifecycle taskRecW false stW).2 rfl⟩

/-! ## C8: configuration partial updates -/

theorem notesGet_set_self :
    ∀ (notes : List (String × List NoteItem)) (k : String) (items : List NoteItem),
      notesGet (notesSet notes k items) k = some items := by
  intro notes k items
  induction notes with
  | nil => simp [notesSet, notesGet, List.lookup]
  | cons p rest ih =>
    obtain ⟨k0, v0⟩ := p
    by_cases hk : k0 = k
    · simp [notesSet, hk, notesGet, List.lookup]
    · have hb : (k == k0) = false := beq_eq_false_iff_ne.mpr (Ne.symm hk)
      simpa [notesSet, hk, notesGet, List.lookup, hb] using ih

theorem notesGet_set_other :
    ∀ (notes : List (String × List NoteItem)) (k : String) (items : List NoteItem)
      (k2 : String), k2 ≠ k →
      notesGet (notesSet notes k items) k2 = notesGet notes k2 := by
  intro notes k items k2 hne
  induction notes with
  | nil =>
    have hb : (k2 == k) = false := beq_eq_false_iff_ne.mpr hne
    simp [notesSet, notesGet, List.lookup, hb]
  | cons p rest ih =>
    obtain ⟨k0, v0⟩ := p
    by_cases hk : k0 = k
    · subst hk
      have hb : (k2 == k0) = false := beq_eq_false_iff_ne.mpr hne
      simp [notesSet, notesGet, List.lookup, hb]
    · by_cases hk2 : k2 = k0
      · subst hk2
        simp [notesSet, hk, notesGet, List.lookup]
      · have hb : (k2 == k0) = false := beq_eq_false_iff_ne.mpr hk2
        simpa [notesSet, hk, notesGet, List.lookup, hb] using ih

theorem lookup_filter_other {β : Type} (l : List (String × β)) (k k2 : String)
    (h : k2 ≠ k) :
    (l.filter fun p => p.1 != k).lookup k2 = l.lookup k2 := by
  induction l with
  | nil => rfl
  | cons p rest ih =>
    obtain ⟨k0, v0⟩ := p
    by_cases hk : k0 = k
    · subst hk
      have hb : (k2 == k0) = false := beq_eq_false_iff_ne.mpr h
      simp [List.filter_cons, List.lookup, hb, ih]
    · have hkept : (k0 != k) = true := by
        simp [bne, beq_eq_false_iff_ne.mpr hk]
      by_cases hk2 : k2 = k0
      · subst hk2
        simp [List.filter_cons, hkept, List.lookup]
      · have hb : (k2 == k0) = false := beq_eq_false_iff_ne.mpr hk2
        simp [List.filter_cons, hkept, List.lookup, hb, ih]

/-- C9: the note handlers normalize the category key (lower-case then
trim) before every lookup or mutation — for every key whose
normalization does not collide with an `Object.prototype` property name,
`add_note` stores under the normalized key and touches no other key and
`list_notes` reads the normalized key; `clear_notes` empties exactly the
normalized key for every nonempty key — and the shopping scenario holds:
from an empty store, adding "eggs" under "shopping" makes the keyed
listing return exactly that one item; removing it by id makes the keyed
listing empty and removes the category from the full listing (no empty
category persists). -/
theorem noteHandlers_spec :
    (∀ (jsD : Json → Option Int) (cronJ : Json → Option Job) (k : String)
        (c : Json) (ctx : Ctx), protoKey (normalizeKey k) = false →
      ∃ out ctx2,
        handleToolCall jsD cronJ "add_note"
            (Json.obj [("key", Json.str k), ("content", c)]) ctx =
          Except.ok (out, ctx2) ∧
        notesGet ctx2.session.notes (normalizeKey k) =
          some (((notesGet ctx.session.notes (normalizeKey k)).getD []) ++
            [{ id := noteIdStr ctx.noteGen, content := c, createdAt := ctx.now,
               createdBy := ctx.userName }]) ∧
        ∀ k2, k2 ≠ normalizeKey k →
          notesGet ctx2.session.notes k2 = notesGet ctx.session.notes k2) ∧
    (∀ (jsD : Json → Option Int) (cronJ : Json → Option Job) (k : String)
        (ctx : Ctx), ¬ k = "" → protoKey (normalizeKey k) = false →
      handleToolCall jsD cronJ "list_notes" (Json.obj [("key", Json.str k)]) ctx =
        Except.ok (Json.obj [("key", Json.str (normalizeKey k)),
          ("notes", Json.arr
            (((notesGet ctx.session.notes (normalizeKey k)).getD []).map noteJson)),
          ("count", Json.num
            ((notesGet ctx.session.notes (normalizeKey k)).getD []).length)], ctx)) ∧
    (∀ (jsD : Json → Option Int) (cronJ : Json → Option Job) (k : String)
        (ctx : Ctx), ¬ k = "" →
      ∃ out ctx2,
        handleToolCall jsD cronJ "clear_notes" (Json.obj [("key", Json.str k)]) ctx =
          Except.ok (out, ctx2) ∧
        notesGet ctx2.session.notes (normalizeKey k) = none ∧
        ∀ k2, k2 ≠ normalizeKey k →
          notesGet ctx2.session.notes k2 = notesGet ctx.session.notes k2) ∧
    ((handleToolCall jsDateNone cronJobNone "add_note"
        (Json.obj [("key", Json.str "shopping"), ("content", Json.str "eggs")])
        ctxInit).toOption.map Prod.snd = some ctxScenario1 ∧
     (handleToolCall jsDateNone cronJobNone "list_notes"
        (Json.obj [("key", Json.str "shopping")]) ctxScenario1).toOption.map Prod.fst =
       some (Json.obj [("key", Json.str "shopping"),
         ("notes", Json.arr [Json.obj [("id", Json.str (noteIdStr 0)),
           ("content", Json.str "eggs"), ("createdAt", Json.num 0),
           ("createdBy", Json.str "alice")]]),
         ("count", Json.num 1)]) ∧
     (handleToolCall jsDateNone cronJobNone "remove_note"
        (Json.obj [("note_id", Json.str (noteIdStr 0))]) ctxScenario1).toOption.map
         Prod.snd = some ctxScenario2 ∧
     (handleToolCall jsDateNone cronJobNone "list_notes"
        (Json.obj [("key", Json.str "shopping")]) ctxScenario2).toOption.map Prod.fst =
       some (Json.obj [("key", Json.str "shopping"), ("notes", Json.arr []),
         ("count", Json.num 0)]) ∧
     (handleToolCall jsDateNone cronJobNone "list_notes" (Json.obj [])
        ctxScenario2).toOption.map Prod.fst =
       some (Json.obj [("notes", Json.obj []), ("keys", Json.arr []),
         ("totalCount", Json.num 0)])) := by
  refine ⟨?_, ?_, ?_, rfl, rfl, rfl, rfl, rfl⟩
  · intro jsD cronJ k c ctx hp
    have hjg : jget (Json.obj [("key", Json.str k), ("content", c)]) "key" =
        some (Json.str k) := rfl
    rcases hno : notesGet ctx.session.notes (normalizeKey k) with _ | prev
    · have hidx : jsNotesIndex ctx.session.notes (normalizeKey k) =
          NotesLookup.absent := by simp [jsNotesIndex, hno, hp]
      simp only [handleToolCall, hjg, hidx]
      refine ⟨_, _, rfl, ?_, ?_⟩
      · exact notesGet_set_self ctx.session.notes (normalizeKey k) _
      · intro k2 hk2
        exact notesGet_set_other ctx.session.notes (normalizeKey k) _ k2 hk2
    · have hidx : jsNotesIndex ctx.session.notes (normalizeKey k) =
          NotesLookup.own prev := by simp [jsNotesIndex, hno]
      simp only [handleToolCall, hjg, hidx]
      refine ⟨_, _, rfl, ?_, ?_⟩
      · exact notesGet_set_self ctx.session.notes (normalizeKey k) _
      · intro k2 hk2
        exact notesGet_set_other ctx.session.notes (normalizeKey k) _ k2 hk2
  · intro jsD cronJ k ctx hk hp
    have htr : jtruthy (jget (Json.obj [("key", Json.str k)]) "key") = true := by
      simp [jtruthy, jget, Json.truthy, hk]
    have hjg : jget (Json.obj [("key", Json.str k)]) "key" = some (Json.str k) := rfl
    simp only [handleToolCall]
    rw [if_pos htr]
    rcases hno : notesGet ctx.session.notes (normalizeKey k) with _ | items
    · have hidx : jsNotesIndex ctx.session.notes (normalizeKey k) =
          NotesLookup.absent := by simp [jsNotesIndex, hno, hp]
      simp only [hjg, hidx]
      rfl
    · have hidx : jsNotesIndex ctx.session.notes (normalizeKey k) =
          NotesLookup.own items := by simp [jsNotesIndex, hno]
      simp only [hjg, hidx]
      rfl
  · intro jsD cronJ k ctx hk
    have htr : jtruthy (jget (Json.obj [("key", Json.str k)]) "key") = true := by
      simp [jtruthy, jget, Json.truthy, hk]
    have hjg : jget (Json.obj [("key", Json.str k)]) "key" = some (Json.str k) := rfl
    rcases hno : notesGet ctx.session.notes (normalizeKey k) with _ | items
    · by_cases hp : protoKey (normalizeKey k) = true
      · have hidx : jsNotesIndex ctx.session.notes (normalizeKey k) =
            NotesLookup.inherited := by simp [jsNotesIndex, hno, hp]
        have hstep : handleToolCall jsD cronJ "clear_notes"
            (Json.obj [("key", Json.str k)]) ctx =
            Except.ok (Json.obj [("success", Json.bool true),
              ("message", Json.str ("All notes under \"" ++ normalizeKey k ++ "\" cleared.")),
              ("key", Json.str (normalizeKey k))],
              { ctx with session := { ctx.session with
                  notes := notesDelete ctx.session.notes (normalizeKey k) } }) := by
          simp only [handleToolCall]
          rw [if_pos htr, hjg]
          simp only [hidx]
        refine ⟨_, _, hstep, ?_, ?_⟩
        · exact lookup_filter_bne ctx.session.notes (normalizeKey k)
        · intro k2 hk2
          exact lookup_filter_other ctx.session.notes (normalizeKey k) k2 hk2
      · have hidx : jsNotesIndex ctx.session.notes (normalizeKey k) =
            NotesLookup.absent := by simp [jsNotesIndex, hno, hp]
        have hstep : handleToolCall jsD cronJ "clear_notes"
            (Json.obj [("key", Json.str k)]) ctx =
            Except.ok (Json.obj [("success", Json.bool false),
              ("error", Json.str ("No notes found under \"" ++ normalizeKey k ++ "\"."))],
              ctx) := by
          simp only [handleToolCall]
          rw [if_pos htr, hjg]
          simp only [hidx]
        exact ⟨_, _, hstep, hno, fun k2 _ => rfl⟩
    · have hidx : jsNotesIndex ctx.session.notes (normalizeKey k) =
          NotesLookup.own items := by simp [jsNotesIndex, hno]
      have hstep : handleToolCall jsD cronJ "clear_notes"
          (Json.obj [("key", Json.str k)]) ctx =
          Except.ok (Json.obj [("success", Json.bool true),
            ("message", Json.str ("All notes under \"" ++ normalizeKey k ++ "\" cleared.")),
            ("key", Json.str (normalizeKey k))],
            { ctx with session := { ctx.session with
                notes := notesDelete ctx.session.notes (normalizeKey k) } }) := by
        simp only [handleToolCall]
        rw [if_pos htr, hjg]
        simp only [hidx]
      refine ⟨_, _, hstep, ?_, ?_⟩
      · exact lookup_filter_bne ctx.session.notes (normalizeKey k)
      · intro k2 hk2
        exact lookup_filter_other ctx.session.notes (normalizeKey k) k2 hk2

/-- Witness for C9: listing under the unnormalized, prototype-safe key
"Shopping" reads the normalized "shopping" entry of the scenario
store. -/
theorem noteHandlers_spec_witness :
    ¬ "Shopping" = "" ∧
    protoKey (normalizeKey "Shopping") = false ∧
    handleToolCall jsDateNone cronJobNone "list_notes"
        (Json.obj [("key", Json.str "Shopping")]) ctxScenario1 =
      Except.ok (Json.obj [("key", Json.str (normalizeKey "Shopping")),
        ("notes", Json.arr
          (((notesGet ctxScenario1.session.notes (normalizeKey "Shopping")).getD []).map
            noteJson)),
        ("count", Json.num
          ((notesGet ctxScenario1.session.notes (normalizeKey "Shopping")).getD
            []).length)], ctxScenario1) :=
  ⟨by decide, by decide,
   noteHandlers_spec.2.1 jsDateNone cronJobNone "Shopping" ctxScenario1 (by decide)
     (by decide)⟩

/-! ## C10: per-chat cancellation frame -/

theorem lookup_none_of_not_mem_keys {β : Type} (l : List (String × β)) (id : String)
    (h : id ∉ l.map Prod.fst) : l.lookup id = none := by
  induction l with
  | nil => rfl
  | cons p rest ih =>
    rw [List.map_cons, List.mem_cons] at h
    push_neg at h
    obtain ⟨h1, h2⟩ := h
    have hb : (id == p.1) = false := beq_eq_false_iff_ne.mpr h1
    obtain ⟨k0, v0⟩ := p
    simp only [List.lookup]
    rw [hb]
    exact ih h2

theorem cancelAllLoop_mem (chatId : Int) :
    ∀ (l : List (String × ScheduledTask)) (p : String × ScheduledTask),
      p ∈ cancelAllLoop chatId l → p.2.chatId ≠ chatId ∧ p ∈ l := by
  intro l
  induction l with
  | nil => intro p hp; cases hp
  | cons q rest ih =>
    intro p hp
    by_cases hc : q.2.chatId = chatId
    · rw [show cancelAllLoop chatId (q :: rest) = cancelAllLoop chatId rest from by
        simp [cancelAllLoop, hc]] at hp
      obtain ⟨h1, h2⟩ := ih p hp
      exact ⟨h1, List.mem_cons_of_mem _ h2⟩
    · rw [show cancelAllLoop chatId (q :: rest) = q :: cancelAllLoop chatId rest from by
        simp [cancelAllLoop, hc]] at hp
      rcases List.mem_cons.mp hp with rfl | hp2
      · exact ⟨hc, List.mem_cons_self _ _⟩
      · obtain ⟨h1, h2⟩ := ih p hp2
        exact ⟨h1, List.mem_cons_of_mem _ h2⟩

theorem cancelAllLoop_lookup (chatId : Int) :
    ∀ l : List (String × ScheduledTask), (l.map Prod.fst).Nodup → ∀ taskId : String,
      (cancelAllLoop chatId l).lookup taskId =
        (match l.lookup taskId with
         | some task => if task.chatId = chatId then none else some task
         | none => none) := by
  intro l
  induction l with
  | nil => intro _ taskId; rfl
  | cons q rest ih =>
    obtain ⟨qk, qv⟩ := q
    intro hnd taskId
    rw [List.map_cons, List.nodup_cons] at hnd
    by_cases hc : qv.chatId = chatId
    · have hstep : cancelAllLoop chatId ((qk, qv) :: rest) = cancelAllLoop chatId rest := by
        simp [cancelAllLoop, hc]
      rw [hstep, ih hnd.2 taskId]
      by_cases hid : taskId = qk
      · subst hid
        have hrest : rest.lookup taskId = none :=
          lookup_none_of_not_mem_keys rest taskId hnd.1
        rw [hrest]
        have hcons : List.lookup taskId ((taskId, qv) :: rest) = some qv := by
          simp [List.lookup]
        rw [hcons]
        simp [hc]
      · have hb : (taskId == qk) = false := beq_eq_false_iff_ne.mpr hid
        have hcons : List.lookup taskId ((qk, qv) :: rest) = List.lookup taskId rest := by
          simp only [List.lookup]
          rw [hb]
        rw [hcons]
    · have hstep : cancelAllLoop chatId ((qk, qv) :: rest) =
          (qk, qv) :: cancelAllLoop chatId rest := by
        simp [cancelAllLoop, hc]
      rw [hstep]
      by_cases hid : taskId = qk
      · subst hid
        simp [List.lookup, hc]
      · have hb : (taskId == qk) = false := beq_eq_false_iff_ne.mpr hid
        simp only [List.lookup]
        rw [hb, ih hnd.2 taskId]

/-- C10: `cancelAllTasksForChat` cancels and removes exactly the tasks of
the given chat: afterwards a lookup finds no task of that chat, every
other task is still found unchanged (same record, its job untouched), and
every surviving entry belongs to a different chat and was already
present. -/
theorem cancelAllTasksForChat_frame (chatId : Int) (st : SchedulerState) :
    ((st.tasks.map Prod.fst).Nodup → ∀ taskId : String,
      (cancelAllTasksForChat chatId st).tasks.lookup taskId =
        (match st.tasks.lookup taskId with
         | some task => if task.chatId = chatId then none else some task
         | none => none)) ∧
    (∀ p ∈ (cancelAllTasksForChat chatId st).tasks,
      p.2.chatId ≠ chatId ∧ p ∈ st.tasks) := by
  constructor
  · intro hnd taskId
    exact cancelAllLoop_lookup chatId st.tasks hnd taskId
  · intro p hp
    exact cancelAllLoop_mem chatId st.tasks p hp

/-- Witness for C10: canceling chat 1 in the fixture scheduler removes
its task and leaves the chat-2 task findable unchanged. -/
theorem cancelAllTasksForChat_frame_witness :
    (cancelAllTasksForChat 1 stW).tasks.lookup (uuidStr 0) =
      (match stW.tasks.lookup (uuidStr 0) with
       | some task => if task.chatId = 1 then none else some task
       | none => none) ∧
    (cancelAllTasksForChat 1 stW).tasks.lookup (uuidStr 1) =
      (match stW.tasks.lookup (uuidStr 1) with
       | some task => if task.chatId = 1 then none else some task
       | none => none) :=
  ⟨(cancelAllTasksForChat_frame 1 stW).1 (by decide) (uuidStr 0),
   (cancelAllTasksForChat_frame 1 stW).1 (by decide) (uuidStr 1)⟩

end Balijarbas

